import Mathlib

/-!
# Verification of `AudioProcessing/plot_waveforms.py`

A shallow embedding of the waveform analysis script.  The script reads a CSV
file into a table of named channels, computes the peak absolute amplitude of
each channel, prints a ranked loudness report and renders two plots over a
derived time axis.

Modelling conventions:
* Sample values are modelled as rationals (`ℚ`); the script's float samples
  are exact on all inputs considered here.
* A pandas column reduction `series.abs().max()` returns NaN on an empty
  column; we model a peak amplitude as `Option ℚ` with `none` standing for
  NaN.  Under the capture-table invariant (all columns share one length) a
  peak-amplitude list is either all-`some` (at least one sample row) or
  all-`none` (zero sample rows), so no mixed NaN/number comparison arises.
* File reading (`pd.read_csv`) is an external collaborator; its three
  relevant outcomes (missing file, unreadable/malformed content, successful
  parse) are modelled by `FileState`, mirroring the `try/except` structure of
  `analyze_and_plot_waveforms`.
* Console output is modelled as the list of printed lines; the two
  matplotlib figures are modelled by the data handed to them (time axis and
  per-channel series).
-/

namespace PlotWaveforms

/-- A capture table: ordered named columns, one per channel, each a list of
samples (column-major view of the CSV contents; the header gives the names).
Generic in the name type `α` (the script uses strings). -/
abbrev Table (α : Type) := List (α × List ℚ)

/-- `CSV_FILENAME = "uma8_capture.csv"` (line 28 of the script). -/
def CSV_FILENAME : String := "uma8_capture.csv"

/-- `SAMPLE_RATE = 48000` (line 29 of the script). -/
def SAMPLE_RATE : ℚ := 48000

/-- `len(df)`: the number of sample rows.  In the column-major view this is
the common column length (0 for a table with no columns). -/
def numSamples {α : Type} (t : Table α) : ℕ :=
  (t.head?.map fun c => c.2.length).getD 0

/-- `df[channel_name].abs().max()` (line 52): the maximum of the absolute
values of a column's samples; `none` models pandas' NaN result on an empty
column. -/
def peakAmplitude (col : List ℚ) : Option ℚ :=
  (col.map fun s => |s|).max?

/-- Lines 49–52: the peak amplitude map, one entry per column in column
order. -/
def peakAmplitudes {α : Type} (t : Table α) : List (α × Option ℚ) :=
  t.map fun c => (c.1, peakAmplitude c.2)

/-- The `key=lambda item: item[1], reverse=True` comparison of line 55 as the
strict "greater" test actually used to order two peaks.  Any comparison with
NaN (`none`) is false, as for Python floats. -/
def keyGt : Option ℚ → Option ℚ → Bool
  | some x, some y => decide (y < x)
  | _, _ => false

/-- Insert one `(name, peak)` pair into an already ranked list, after the
strictly louder entries and before everything else.  Together with
`sortPeaks` this computes exactly the stable descending order produced by
`sorted(..., key=lambda item: item[1], reverse=True)` (line 55). -/
def insertPeak {α : Type} (x : α × Option ℚ) :
    List (α × Option ℚ) → List (α × Option ℚ)
  | [] => [x]
  | y :: ys => if keyGt y.2 x.2 then y :: insertPeak x ys else x :: y :: ys

/-- Line 55: the ranked peak list, sorted descending by peak value with ties
kept in input (column) order — a stable descending sort, as Python's
`sorted` with `reverse=True` guarantees. -/
def sortPeaks {α : Type} : List (α × Option ℚ) → List (α × Option ℚ)
  | [] => []
  | x :: xs => insertPeak x (sortPeaks xs)

/-- Round a rational to the nearest integer, ties to even — the rounding used
by Python's fixed-point float formatting. -/
def roundHalfEven (q : ℚ) : ℤ :=
  let f := ⌊q⌋
  let r := q - f
  if r < 1 / 2 then f
  else if 1 / 2 < r then f + 1
  else if f % 2 = 0 then f else f + 1

/-- Zero-pad a numeral string on the left to four characters. -/
def pad4 (s : String) : String :=
  String.mk (List.replicate (4 - s.length) '0') ++ s

/-- The `{peak:.4f}` format of line 58 on an exact (rational) value: fixed
four decimal places, rounding half to even.  (Peaks are never negative, so
the sign of a negative zero never shows.)  `none` (NaN) prints as `nan`,
as `f-strings` render a float NaN. -/
def fmt4 : Option ℚ → String
  | none => "nan"
  | some q =>
    let n := roundHalfEven (q * 10000)
    let sign := if n < 0 then "-" else ""
    let a := n.natAbs
    sign ++ toString (a / 10000) ++ "." ++ pad4 (toString (a % 10000))

/-- One line of the loudness report (line 58):
`f"{i+1}. {channel}: {peak:.4f}"` with `i` the 0-based enumeration index. -/
def reportLine {α : Type} [ToString α] (i : ℕ) (channel : α)
    (peak : Option ℚ) : String :=
  toString (i + 1) ++ ". " ++ toString channel ++ ": " ++ fmt4 peak

/-- Lines 57–58: the printed loudness report, one line per ranked entry. -/
def reportLines {α : Type} [ToString α]
    (sorted_peaks : List (α × Option ℚ)) : List String :=
  sorted_peaks.enum.map fun e => reportLine e.1 e.2.1 e.2.2

/-- Line 62, `np.arange(num_samples) / SAMPLE_RATE`: the time axis, element
`i` is `i / rate`. -/
def time_axis (num_samples : ℕ) (rate : ℚ) : List ℚ :=
  (List.range num_samples).map fun (i : ℕ) => (i : ℚ) / rate

/-- The three outcomes of `pd.read_csv` that the script distinguishes:
`FileNotFoundError`, any other reading exception (with its message), or a
successfully parsed table.  A file holding only a header row parses
successfully into a table whose columns all have zero samples. -/
inductive FileState where
  | missing : FileState
  | unreadable : String → FileState
  | wellFormed : Table String → FileState

/-- What one figure receives: the shared time axis on x and each channel's
samples on y (`ax.plot(time_axis, df[channel_name])`, lines 71 and 81). -/
structure PlotData where
  timeAxis : List ℚ
  series : Table String
  deriving DecidableEq

/-- The observable behaviour of one run: every line printed to the console,
in order, and the data of the two figures (`none` when the script returned
before plotting). -/
structure Output where
  lines : List String
  plots : Option (PlotData × PlotData)
  deriving DecidableEq

/-- Lines 89–93: the fixed how-to-analyze epilogue. -/
def howToLines : List String :=
  ["\n--- How to Analyze the Plots ---",
   "1. The console output above shows which mic detected the loudest sound.",
   "2. In the 'All Channels Overlay' plot window, use the ZOOM tool (magnifying glass)",
   "   to click and drag a box around the very beginning of the sound event.",
   "3. As you zoom in, you will be able to see which colored line rises from zero first."]

/-- `analyze_and_plot_waveforms` (lines 31–95), over the outcome of the file
read and with the sample-rate constant as an explicit parameter (the script
reads the global `SAMPLE_RATE`; passing it lets the theorems compare runs
under different rates).  Each `print(...)` contributes one entry to
`Output.lines`. -/
def analyze_and_plot_waveforms (fs : FileState) (rate : ℚ) : Output :=
  let l0 := "Reading audio data from '" ++ CSV_FILENAME ++ "'..."
  match fs with
  | .missing =>
    { lines := [l0,
        "Error: The file '" ++ CSV_FILENAME ++ "' was not found.",
        "Please run the C++ capture program first to generate the data file."],
      plots := none }
  | .unreadable e =>
    { lines := [l0, "An error occurred while reading the file: " ++ e],
      plots := none }
  | .wellFormed df =>
    let num_samples := numSamples df
    let peak_amplitudes := peakAmplitudes df
    let sorted_peaks := sortPeaks peak_amplitudes
    let axis := time_axis num_samples rate
    { lines := [l0, "\n--- Peak Amplitude Analysis (Loudness) ---"]
        ++ reportLines sorted_peaks
        ++ ["\nGenerating plots... Close the plot windows to exit."]
        ++ howToLines,
      plots := some (⟨axis, df⟩, ⟨axis, df⟩) }

/-! ## Lemmas about the ranking sort -/

/-- The "at least as loud" relation the ranked list is sorted by: whenever
both peaks are numbers, the left one is at least the right one.  (On NaN
peaks, which only arise for zero-sample channels, it holds vacuously.) -/
def peakGe {α : Type} (a b : α × Option ℚ) : Prop :=
  ∀ x y : ℚ, a.2 = some x → b.2 = some y → y ≤ x

theorem keyGt_true {a b : Option ℚ} (h : keyGt a b = true) :
    ∃ x y : ℚ, a = some x ∧ b = some y ∧ y < x := by
  cases a with
  | none => simp [keyGt] at h
  | some x =>
    cases b with
    | none => simp [keyGt] at h
    | some y =>
      simp only [keyGt, decide_eq_true_eq] at h
      exact ⟨x, y, rfl, rfl, h⟩

theorem keyGt_false_some {x y : ℚ} (h : keyGt (some x) (some y) = false) :
    x ≤ y := by
  simp only [keyGt, decide_eq_false_iff_not, not_lt] at h
  exact h

theorem mem_insertPeak {α : Type} {a x : α × Option ℚ}
    {l : List (α × Option ℚ)} : a ∈ insertPeak x l ↔ a = x ∨ a ∈ l := by
  induction l with
  | nil => simp [insertPeak]
  | cons y ys ih =>
    simp only [insertPeak]
    split
    · simp only [List.mem_cons, ih]
      tauto
    · simp only [List.mem_cons]

theorem mem_sortPeaks {α : Type} {a : α × Option ℚ}
    {l : List (α × Option ℚ)} : a ∈ sortPeaks l ↔ a ∈ l := by
  induction l with
  | nil => simp [sortPeaks]
  | cons x xs ih => simp [sortPeaks, mem_insertPeak, ih]

theorem pairwise_insertPeak {α : Type} {x : α × Option ℚ}
    {l : List (α × Option ℚ)} (hl : ∀ p ∈ l, (p.2).isSome)
    (hp : l.Pairwise peakGe) : (insertPeak x l).Pairwise peakGe := by
  induction l with
  | nil => simp [insertPeak]
  | cons y ys ih =>
    rw [List.pairwise_cons] at hp
    simp only [insertPeak]
    split
    case isTrue hgt =>
      refine List.Pairwise.cons ?_ (ih (fun p hp' => hl p (List.mem_cons_of_mem _ hp')) hp.2)
      intro z hz
      rcases mem_insertPeak.1 hz with rfl | hz'
      · obtain ⟨u, v, hyu, hzv, hlt⟩ := keyGt_true hgt
        intro a b ha hb
        rw [hyu] at ha
        rw [hzv] at hb
        cases ha
        cases hb
        exact le_of_lt hlt
      · exact hp.1 z hz'
    case isFalse hng =>
      refine List.Pairwise.cons ?_ (List.Pairwise.cons hp.1 hp.2)
      intro z hz
      rcases List.mem_cons.1 hz with rfl | hz'
      · intro a b ha hb
        rw [Bool.not_eq_true] at hng
        rw [ha, hb] at hng
        exact keyGt_false_some hng
      · intro a b ha hb
        obtain ⟨u, hu⟩ := Option.isSome_iff_exists.1 (hl y (List.mem_cons_self y ys))
        have h1 : u ≤ a := by
          rw [Bool.not_eq_true] at hng
          rw [ha, hu] at hng
          exact keyGt_false_some hng
        exact le_trans (hp.1 z hz' u b hu hb) h1

theorem pairwise_sortPeaks {α : Type} {l : List (α × Option ℚ)}
    (hl : ∀ p ∈ l, (p.2).isSome) : (sortPeaks l).Pairwise peakGe := by
  induction l with
  | nil => exact List.Pairwise.nil
  | cons x xs ih =>
    exact pairwise_insertPeak
      (fun p hp => hl p (List.mem_cons_of_mem _ (mem_sortPeaks.1 hp)))
      (ih fun p hp => hl p (List.mem_cons_of_mem _ hp))

theorem filter_insertPeak {α : Type} (q : ℚ) (x : α × Option ℚ)
    (l : List (α × Option ℚ)) :
    (insertPeak x l).filter (fun p => p.2 = some q)
      = if x.2 = some q then x :: l.filter (fun p => p.2 = some q)
        else l.filter (fun p => p.2 = some q) := by
  induction l with
  | nil => by_cases hx : x.2 = some q <;> simp [insertPeak, List.filter_cons, hx]
  | cons y ys ih =>
    simp only [insertPeak]
    split
    case isTrue hgt =>
      by_cases hx : x.2 = some q
      · obtain ⟨u, v, hyu, hxv, hlt⟩ := keyGt_true hgt
        rw [hx] at hxv
        cases hxv
        have hyq : ¬(y.2 = some q) := by
          rw [hyu]
          intro hc
          rw [Option.some_inj] at hc
          exact absurd hc (ne_of_gt hlt)
        simp [List.filter_cons, hx, hyq, ih]
      · simp [List.filter_cons, hx, ih]
    case isFalse hng =>
      by_cases hx : x.2 = some q <;> simp [List.filter_cons, hx]

theorem filter_sortPeaks {α : Type} (q : ℚ) (l : List (α × Option ℚ)) :
    (sortPeaks l).filter (fun p => p.2 = some q)
      = l.filter (fun p => p.2 = some q) := by
  induction l with
  | nil => rfl
  | cons x xs ih =>
    rw [sortPeaks, filter_insertPeak, ih, List.filter_cons]
    by_cases hx : x.2 = some q <;> simp [hx]

theorem insertPeak_map {α β : Type} (f : α → β) (x : α × Option ℚ)
    (l : List (α × Option ℚ)) :
    insertPeak (f x.1, x.2) (l.map fun p => (f p.1, p.2))
      = (insertPeak x l).map fun p => (f p.1, p.2) := by
  induction l with
  | nil => rfl
  | cons y ys ih =>
    simp only [List.map_cons, insertPeak]
    split <;> simp_all

theorem sortPeaks_map {α β : Type} (f : α → β) (l : List (α × Option ℚ)) :
    sortPeaks (l.map fun p => (f p.1, p.2))
      = (sortPeaks l).map fun p => (f p.1, p.2) := by
  induction l with
  | nil => rfl
  | cons x xs ih =>
    simp only [List.map_cons, sortPeaks, ih]
    exact insertPeak_map f x (sortPeaks xs)

theorem peakAmplitudes_map {α β : Type} (f : α → β) (t : Table α) :
    peakAmplitudes (t.map fun c => (f c.1, c.2))
      = (peakAmplitudes t).map fun p => (f p.1, p.2) := by
  simp [peakAmplitudes, List.map_map]

/-! ## Claim theorems -/

/-- C4: when the input file does not exist, the program takes the
`FileNotFoundError` path: it prints the fixed user-facing message pair after
the initial read notice (no stack trace, the exception is caught), returns,
and produces neither a peak-amplitude report nor any plot. -/
theorem missing_file_error_path (rate : ℚ) :
    analyze_and_plot_waveforms .missing rate =
      { lines := ["Reading audio data from 'uma8_capture.csv'...",
          "Error: The file 'uma8_capture.csv' was not found.",
          "Please run the C++ capture program first to generate the data file."],
        plots := none } := rfl

/-- C5: when the file exists but reading it fails, the generic handler
catches the exception at the top level, prints one human-readable message
carrying the exception text, and the function returns: no report line and
no plot is produced, so nothing of the analysis or plotting stages runs. -/
theorem unreadable_file_error_path (msg : String) (rate : ℚ) :
    analyze_and_plot_waveforms (.unreadable msg) rate =
      { lines := ["Reading audio data from 'uma8_capture.csv'...",
          "An error occurred while reading the file: " ++ msg],
        plots := none } := rfl

/-- C9: two runs differing only in the sample-rate constant print exactly
the same console lines (so the same peak report), plot the same per-channel
series, and agree on whether plots are produced at all: the sample rate can
only influence the plotted time axis. -/
theorem sample_rate_noninterference (fs : FileState) (r1 r2 : ℚ) :
    (analyze_and_plot_waveforms fs r1).lines
        = (analyze_and_plot_waveforms fs r2).lines ∧
    ((analyze_and_plot_waveforms fs r1).plots).map
        (fun p => (p.1.series, p.2.series))
      = ((analyze_and_plot_waveforms fs r2).plots).map
        (fun p => (p.1.series, p.2.series)) ∧
    ((analyze_and_plot_waveforms fs r1).plots).isSome
      = ((analyze_and_plot_waveforms fs r2).plots).isSome := by
  cases fs <;> exact ⟨rfl, rfl, rfl⟩

/-- C3: a successfully parsed header-only table takes the normal path (the
run reaches the analysis and plotting stages, it does not crash or bail
out), and the analyzer applies one uniform policy to every zero-sample
channel: its peak amplitude is the NaN that `series.abs().max()` returns on
an empty column, modelled by `none`. -/
theorem empty_table_policy (t : Table String) (rate : ℚ) :
    ((analyze_and_plot_waveforms (.wellFormed t) rate).plots).isSome = true ∧
    ∀ i (hi : i < t.length), (t.get ⟨i, hi⟩).2 = [] →
      (peakAmplitudes t).get? i = some ((t.get ⟨i, hi⟩).1, (none : Option ℚ)) := by
  refine ⟨rfl, fun i hi hempty => ?_⟩
  have hget : t.get? i = some (t.get ⟨i, hi⟩) := List.get?_eq_get hi
  rw [peakAmplitudes, List.get?_map, hget, Option.map_some', hempty]
  rfl

/-- C3 witness: on the two-channel table with zero sample rows the run
reaches the plotting stage and channel 0 receives the uniform empty-channel
peak `none`. -/
theorem empty_table_policy_witness :
    ((analyze_and_plot_waveforms
        (.wellFormed [("Mic_1", []), ("Mic_2", [])]) 48000).plots).isSome = true ∧
    (peakAmplitudes [(("Mic_1" : String), ([] : List ℚ)), ("Mic_2", [])]).get? 0
      = some ("Mic_1", (none : Option ℚ)) :=
  ⟨(empty_table_policy [("Mic_1", []), ("Mic_2", [])] 48000).1,
   (empty_table_policy [("Mic_1", []), ("Mic_2", [])] 48000).2 0 (by norm_num) rfl⟩

/-- C6: the derived time axis has exactly `num_samples` entries, its first
entry (when it exists) is `0`, entry `i` is `i / 48000`, and consecutive
entries differ by exactly `1 / 48000`, with the `SAMPLE_RATE` constant equal
to 48000. -/
theorem time_axis_spec (m : ℕ) :
    (time_axis m SAMPLE_RATE).length = m ∧
    (0 < m → (time_axis m SAMPLE_RATE).get? 0 = some 0) ∧
    (∀ i, i < m → (time_axis m SAMPLE_RATE).get? i = some ((i : ℚ) / 48000)) ∧
    (∀ i, i + 1 < m → ∀ x y : ℚ,
      (time_axis m SAMPLE_RATE).get? i = some x →
      (time_axis m SAMPLE_RATE).get? (i + 1) = some y →
      y - x = 1 / 48000) := by
  have hgen : ∀ i, i < m →
      (time_axis m SAMPLE_RATE).get? i = some ((i : ℚ) / 48000) := by
    intro i hi
    rw [time_axis, List.get?_map, List.get?_range hi, Option.map_some']
    rfl
  refine ⟨by rw [time_axis, List.length_map, List.length_range],
    fun hm => ?_, hgen, fun i hi x y hx hy => ?_⟩
  · rw [hgen 0 hm]
    norm_num
  · rw [hgen i (Nat.lt_of_succ_lt hi)] at hx
    rw [hgen (i + 1) hi] at hy
    rw [Option.some_inj] at hx hy
    subst hx
    subst hy
    push_cast
    ring

/-- C6 witness: for three samples the axis is `[0, 1/48000, 2/48000]`, so it
has length 3, starts at 0, and its two consecutive gaps are `1/48000`. -/
theorem time_axis_spec_witness :
    (time_axis 3 SAMPLE_RATE).length = 3 ∧
    (time_axis 3 SAMPLE_RATE).get? 0 = some 0 ∧
    (time_axis 3 SAMPLE_RATE).get? 1 = some ((1 : ℚ) / 48000) ∧
    ((2 : ℚ) / 48000 - 1 / 48000 = 1 / 48000) :=
  ⟨(time_axis_spec 3).1,
   (time_axis_spec 3).2.1 (by norm_num),
   (time_axis_spec 3).2.2.1 1 (by norm_num),
   (time_axis_spec 3).2.2.2 1 (by norm_num) (1 / 48000) (2 / 48000)
     (by rw [(time_axis_spec 3).2.2.1 1 (by norm_num)]; norm_num)
     (by rw [(time_axis_spec 3).2.2.1 2 (by norm_num)]; norm_num)⟩

/-- The spec's worked example: columns `Mic_1, Mic_2` with sample rows
`[0.1, -0.9]` and `[0.5, 0.3]` (column-major: `Mic_1 = [0.1, 0.5]`,
`Mic_2 = [-0.9, 0.3]`). -/
def exampleTable : Table String :=
  [("Mic_1", [1/10, 1/2]), ("Mic_2", [-9/10, 3/10])]

/-- C1 (amended: requires at least one sample row; with zero rows each
entry is the NaN of an empty-column reduction): for a capture table with
`N` channels and `M ≥ 1` samples per channel, the peak amplitude map has
exactly `N` entries in column order, and entry `i` carries channel `i`'s
name with a value that is non-negative and is the maximum of the absolute
values of that column's samples. -/
theorem peakMap_correct_of_samples_pos (t : Table String) (M : ℕ)
    (hM : 0 < M) (hcols : ∀ c ∈ t, c.2.length = M) :
    (peakAmplitudes t).length = t.length ∧
    ∀ i (hi : i < t.length), ∃ v : ℚ,
      (peakAmplitudes t).get? i = some ((t.get ⟨i, hi⟩).1, some v) ∧
      0 ≤ v ∧ v ∈ (t.get ⟨i, hi⟩).2.map (fun s => |s|) ∧
      ∀ s ∈ (t.get ⟨i, hi⟩).2, |s| ≤ v := by
  refine ⟨by rw [peakAmplitudes, List.length_map], fun i hi => ?_⟩
  have hmem : t.get ⟨i, hi⟩ ∈ t := List.get_mem t i hi
  have hlen : (t.get ⟨i, hi⟩).2.length = M := hcols _ hmem
  have hne : (t.get ⟨i, hi⟩).2.map (fun s => |s|) ≠ [] := by
    intro hnil
    have h0 := congrArg List.length hnil
    rw [List.length_map, hlen] at h0
    simp at h0
    omega
  obtain ⟨v, hv⟩ : ∃ v, ((t.get ⟨i, hi⟩).2.map (fun s => |s|)).max? = some v := by
    cases h : ((t.get ⟨i, hi⟩).2.map fun s => |s|).max? with
    | none => exact absurd (List.max?_eq_none_iff.1 h) hne
    | some v => exact ⟨v, rfl⟩
  have hmax := (@List.max?_eq_some_iff ℚ v _ _
      ⟨fun h1 h2 => le_antisymm h1 h2⟩ le_refl max_choice
      (fun _ _ _ => max_le_iff) _).1 hv
  obtain ⟨s, -, hs⟩ := List.mem_map.1 hmax.1
  refine ⟨v, ?_, ?_, hmax.1, fun s' hs' => hmax.2 _ (List.mem_map_of_mem _ hs')⟩
  · rw [peakAmplitudes, List.get?_map, List.get?_eq_get hi, Option.map_some',
      Option.some_inj]
    exact congrArg _ hv
  · rw [← hs]
    exact abs_nonneg s

/-- C1 counterexample: on a one-channel table with zero sample rows the
peak map's single entry is NaN (`none`), which is not a non-negative value
and not a maximum of any samples — so the unamended claim fails at `M = 0`. -/
theorem peakMap_zero_rows_counterexample :
    peakAmplitudes [(("Mic_1" : String), ([] : List ℚ))] = [("Mic_1", none)] ∧
    ¬ ∃ v : ℚ, (peakAmplitudes [(("Mic_1" : String), ([] : List ℚ))]).get? 0
        = some ("Mic_1", some v) ∧ 0 ≤ v := by
  refine ⟨rfl, ?_⟩
  rintro ⟨v, hv, -⟩
  have hv' : some (("Mic_1", none) : String × Option ℚ)
      = some ("Mic_1", some v) := hv
  simp at hv'

/-- C1 witness: the amended claim evaluated on the spec's example table
(two channels, two samples): channel 0's entry is a non-negative maximum of
`Mic_1`'s absolute samples. -/
theorem peakMap_correct_of_samples_pos_witness :
    (0 : ℕ) < 2 ∧ (∀ c ∈ exampleTable, c.2.length = 2) ∧
    (peakAmplitudes exampleTable).length = exampleTable.length ∧
    ∃ v : ℚ, (peakAmplitudes exampleTable).get? 0 = some ("Mic_1", some v) ∧
      0 ≤ v ∧ v ∈ [(1 : ℚ)/10, 1/2].map (fun s => |s|) ∧
      ∀ s ∈ [(1 : ℚ)/10, 1/2], |s| ≤ v := by
  have hcols : ∀ c ∈ exampleTable, c.2.length = 2 := by
    intro c hc
    rcases List.mem_cons.1 hc with rfl | hc'
    · rfl
    · rcases List.mem_cons.1 hc' with rfl | hc''
      · rfl
      · exact absurd hc'' (List.not_mem_nil c)
  refine ⟨by norm_num, hcols,
    (peakMap_correct_of_samples_pos exampleTable 2 (by norm_num) hcols).1, ?_⟩
  obtain ⟨v, h1, h2, h3, h4⟩ :=
    (peakMap_correct_of_samples_pos exampleTable 2 (by norm_num) hcols).2 0
      (by norm_num [exampleTable])
  exact ⟨v, h1, h2, h3, h4⟩

/-- C2: for every peak amplitude map (channel names with their real peak
values, in column order), the ranked list is sorted descending by value
(`peakGe` holds pairwise along it), and for every value `q` the entries of
value `q` appear in exactly their original relative order — the stable
tie-break. -/
theorem ranked_list_sorted_stable (l : List (String × ℚ)) :
    (sortPeaks (l.map fun p => (p.1, some p.2))).Pairwise peakGe ∧
    ∀ q : ℚ,
      (sortPeaks (l.map fun p => (p.1, some p.2))).filter (fun p => p.2 = some q)
        = (l.filter fun p => p.2 = q).map fun p => (p.1, some p.2) := by
  constructor
  · refine pairwise_sortPeaks ?_
    intro p hp
    obtain ⟨a, -, rfl⟩ := List.mem_map.1 hp
    rfl
  · intro q
    rw [filter_sortPeaks, List.filter_map]
    congr 1
    apply List.filter_congr
    intro p hp
    simp

/-- C2 witness: on the two-entry map `A ↦ 2, B ↦ 2` the ranked list is
pairwise descending and the value-2 entries keep their original order. -/
theorem ranked_list_sorted_stable_witness :
    (sortPeaks ([("A", 2), ("B", 2)].map fun p => (p.1, some p.2))).Pairwise peakGe ∧
    (sortPeaks ([("A", 2), ("B", 2)].map fun p => (p.1, some p.2))).filter
        (fun p => p.2 = some 2)
      = ([(("A" : String), (2 : ℚ)), ("B", 2)].filter fun p => p.2 = 2).map
          fun p => (p.1, some p.2) :=
  ⟨(ranked_list_sorted_stable [("A", 2), ("B", 2)]).1,
   (ranked_list_sorted_stable [("A", 2), ("B", 2)]).2 2⟩

/-- C7: the report has exactly one line per ranked entry; line `i` (0-based)
is the 1-indexed rank, a dot and space, the channel name, a colon and
space, then the fixed 4-decimal rendering of the value; and in a
successful run these lines appear between the analysis header and the
plotting notice. -/
theorem report_format (sorted_peaks : List (String × Option ℚ))
    (t : Table String) (rate : ℚ) :
    (reportLines sorted_peaks).length = sorted_peaks.length ∧
    (∀ i (hi : i < sorted_peaks.length),
      (reportLines sorted_peaks).get? i
        = some (toString (i + 1) ++ ". " ++ (sorted_peaks.get ⟨i, hi⟩).1
            ++ ": " ++ fmt4 (sorted_peaks.get ⟨i, hi⟩).2)) ∧
    (analyze_and_plot_waveforms (.wellFormed t) rate).lines
      = ["Reading audio data from 'uma8_capture.csv'...",
         "\n--- Peak Amplitude Analysis (Loudness) ---"]
        ++ reportLines (sortPeaks (peakAmplitudes t))
        ++ ["\nGenerating plots... Close the plot windows to exit."]
        ++ howToLines := by
  refine ⟨by rw [reportLines, List.length_map, List.enum_length],
    fun i hi => ?_, rfl⟩
  rw [reportLines, List.get?_map, List.get?_enum, List.get?_eq_get hi,
    Option.map_some', Option.map_some']
  rfl

/-- C7 witness: a two-entry ranked list (one real value, one NaN) yields two
lines, and line 1 is rank `2`, name `B`, and the `nan` rendering. -/
theorem report_format_witness :
    (reportLines [("A", some 1), ("B", (none : Option ℚ))]).length = 2 ∧
    (reportLines [("A", some 1), ("B", (none : Option ℚ))]).get? 1
      = some (toString (1 + 1) ++ ". " ++ "B" ++ ": " ++ fmt4 none) :=
  ⟨(report_format [("A", some 1), ("B", none)] [] 0).1,
   (report_format [("A", some 1), ("B", none)] [] 0).2.1 1 (by norm_num)⟩

/-- C8: on the spec's example table the analyzer computes the peak map
`Mic_1 ↦ 0.5, Mic_2 ↦ 0.9`, ranks `Mic_2` first, and prints
`1. Mic_2: 0.9000` followed by `2. Mic_1: 0.5000`. -/
theorem example_table_analysis :
    peakAmplitudes exampleTable
      = [("Mic_1", some (1/2)), ("Mic_2", some (9/10))] ∧
    sortPeaks (peakAmplitudes exampleTable)
      = [("Mic_2", some (9/10)), ("Mic_1", some (1/2))] ∧
    reportLines (sortPeaks (peakAmplitudes exampleTable))
      = ["1. Mic_2: 0.9000", "2. Mic_1: 0.5000"] := by
  have h1 : peakAmplitudes exampleTable
      = [("Mic_1", some (1/2)), ("Mic_2", some (9/10))] := by
    norm_num [peakAmplitudes, peakAmplitude, exampleTable, List.max?, max_def, abs]
  have h2 : sortPeaks [(("Mic_1" : String), some ((1 : ℚ)/2)), ("Mic_2", some (9/10))]
      = [("Mic_2", some (9/10)), ("Mic_1", some (1/2))] := by
    norm_num [sortPeaks, insertPeak, keyGt]
  have h3 : reportLines [(("Mic_2" : String), some ((9 : ℚ)/10)), ("Mic_1", some (1/2))]
      = ["1. Mic_2: 0.9000", "2. Mic_1: 0.5000"] := by
    norm_num [reportLines, reportLine, List.enum, fmt4, roundHalfEven, pad4]
    exact ⟨rfl, rfl⟩
  exact ⟨h1, by rw [h1]; exact h2, by rw [h1, h2]; exact h3⟩

/-- Projecting the name-paired table back to its first run: pairing two
tables that agree on their sample columns and keeping the first names gives
back the first table. -/
theorem pairTable_fst (t1 t2 : Table String)
    (h : t1.map Prod.snd = t2.map Prod.snd) :
    (((t1.zip t2).map fun c => ((c.1.1, c.2.1), c.1.2)).map
        fun p => (Prod.fst p.1, p.2)) = t1 := by
  induction t1 generalizing t2 with
  | nil => rfl
  | cons x xs ih =>
    cases t2 with
    | nil => simp at h
    | cons y ys =>
      simp only [List.map_cons, List.cons.injEq] at h
      simp only [List.zip_cons_cons, List.map_cons]
      exact congrArg (List.cons x) (ih ys h.2)

/-- Projecting the name-paired table to its second run: keeping the second
names gives back the second table. -/
theorem pairTable_snd (t1 t2 : Table String)
    (h : t1.map Prod.snd = t2.map Prod.snd) :
    (((t1.zip t2).map fun c => ((c.1.1, c.2.1), c.1.2)).map
        fun p => (Prod.snd p.1, p.2)) = t2 := by
  induction t1 generalizing t2 with
  | nil =>
    cases t2 with
    | nil => rfl
    | cons y ys => simp at h
  | cons x xs ih =>
    cases t2 with
    | nil => simp at h
    | cons y ys =>
      simp only [List.map_cons, List.cons.injEq] at h
      simp only [List.zip_cons_cons, List.map_cons]
      refine congrArg₂ List.cons ?_ (ih ys h.2)
      rw [h.1]

/-- C10: for two capture tables that differ only by a renaming of their
columns (same column order, same sample columns), the ranked lists carry
the same peak values in the same positions, and the name at each rank comes
from the same original column index in both runs — the sort key is the
value alone. -/
theorem ranking_ignores_names (t1 t2 : Table String)
    (h : t1.map Prod.snd = t2.map Prod.snd) :
    (sortPeaks (peakAmplitudes t2)).map Prod.snd
      = (sortPeaks (peakAmplitudes t1)).map Prod.snd ∧
    ∀ k, k < (sortPeaks (peakAmplitudes t1)).length →
      ∃ j, ((sortPeaks (peakAmplitudes t1)).get? k).map Prod.fst
            = (t1.get? j).map Prod.fst ∧
          ((sortPeaks (peakAmplitudes t2)).get? k).map Prod.fst
            = (t2.get? j).map Prod.fst := by
  have e1 : sortPeaks (peakAmplitudes t1)
      = (sortPeaks (peakAmplitudes
            ((t1.zip t2).map fun c => ((c.1.1, c.2.1), c.1.2)))).map
          fun p => (Prod.fst p.1, p.2) := by
    conv_lhs => rw [← pairTable_fst t1 t2 h]
    rw [peakAmplitudes_map, sortPeaks_map]
  have e2 : sortPeaks (peakAmplitudes t2)
      = (sortPeaks (peakAmplitudes
            ((t1.zip t2).map fun c => ((c.1.1, c.2.1), c.1.2)))).map
          fun p => (Prod.snd p.1, p.2) := by
    conv_lhs => rw [← pairTable_snd t1 t2 h]
    rw [peakAmplitudes_map, sortPeaks_map]
  constructor
  · rw [e1, e2, List.map_map, List.map_map]
    rfl
  · intro k hk
    rw [e1, List.length_map] at hk
    have hsk := List.get?_eq_get hk
    have hpmem : (sortPeaks (peakAmplitudes
        ((t1.zip t2).map fun c => ((c.1.1, c.2.1), c.1.2)))).get ⟨k, hk⟩
        ∈ peakAmplitudes ((t1.zip t2).map fun c => ((c.1.1, c.2.1), c.1.2)) :=
      mem_sortPeaks.1 (List.get_mem _ k hk)
    obtain ⟨c, hc, hcp⟩ := List.mem_map.1 hpmem
    obtain ⟨⟨j, hj⟩, hcj⟩ := List.mem_iff_get.1 hc
    have htp : ((t1.zip t2).map fun c => ((c.1.1, c.2.1), c.1.2)).get? j
        = some c := by
      rw [List.get?_eq_get hj, hcj]
    have ht1 : t1.get? j = some (c.1.1, c.2) := by
      conv_lhs => rw [← pairTable_fst t1 t2 h]
      rw [List.get?_map, htp, Option.map_some']
    have ht2 : t2.get? j = some (c.1.2, c.2) := by
      conv_lhs => rw [← pairTable_snd t1 t2 h]
      rw [List.get?_map, htp, Option.map_some']
    refine ⟨j, ?_, ?_⟩
    · rw [e1, List.get?_map, hsk, Option.map_some', Option.map_some', ht1,
        Option.map_some', ← hcp]
    · rw [e2, List.get?_map, hsk, Option.map_some', Option.map_some', ht2,
        Option.map_some', ← hcp]

/-- C10 witness: renaming the single column `A` to `X` leaves the ranked
values unchanged, and rank 0's names in the two runs come from the same
column index. -/
theorem ranking_ignores_names_witness :
    ([("A", [2])] : Table String).map Prod.snd
      = ([("X", [2])] : Table String).map Prod.snd ∧
    (sortPeaks (peakAmplitudes ([("X", [2])] : Table String))).map Prod.snd
      = (sortPeaks (peakAmplitudes ([("A", [2])] : Table String))).map Prod.snd ∧
    ∃ j, ((sortPeaks (peakAmplitudes ([("A", [2])] : Table String))).get? 0).map
          Prod.fst = (([("A", [2])] : Table String).get? j).map Prod.fst ∧
        ((sortPeaks (peakAmplitudes ([("X", [2])] : Table String))).get? 0).map
          Prod.fst = (([("X", [2])] : Table String).get? j).map Prod.fst :=
  ⟨rfl,
   (ranking_ignores_names [("A", [2])] [("X", [2])] rfl).1,
   (ranking_ignores_names [("A", [2])] [("X", [2])] rfl).2 0 (by decide)⟩

end PlotWaveforms
